import Mathlib

/-!
Verification of the premarket-gainers tracking server.

The development shallowly embeds the server's core services:
`StockService` (change detection and classification), `AlertService`
(built-in and custom alert rules), `CronService` (the orchestration
cycle with its single-flight guard and cleanup throttle),
`WebSocketService` (client registry, heartbeat, message protocol) and
`ScraperService` (row parsing and batch construction).

Numeric JS fields are modelled as exact rationals (`ℚ`) for prices and
percentages and integers (`ℤ`) for volumes, ranks, ids and epoch-millis
timestamps; fallible operations return `Option`/`Except`.
-/

namespace StockTracker

/-- One symbol's market data at one fetch cycle (`StockData` in
`types/stock.interface.ts`).  `id` is the optional database row id;
`timestamp` is epoch milliseconds. -/
structure StockData where
  id : Option ℤ
  symbol : String
  companyName : String
  percentChange : ℚ
  premarketPrice : ℚ
  premarketVolume : ℤ
  marketCap : String
  rank : ℤ
  timestamp : ℤ
deriving DecidableEq, Repr

/-- The change-type taxonomy of `StockUpdate['changeType']`. -/
inductive ChangeType where
  | NEW
  | PRICE_INCREASE
  | PRICE_DECREASE
  | RANK_CHANGE
  | REMOVED
deriving DecidableEq, Repr

/-- A derived update record pairing previous and current snapshot
(`StockUpdate` in `types/stock.interface.ts`).  `changeAmount` and
`changePercent` are `none` when the JS object omits the keys. -/
structure StockUpdate where
  id : ℤ
  stockId : ℤ
  previousData : StockData
  currentData : StockData
  changeType : ChangeType
  changeAmount : Option ℚ
  changePercent : Option ℚ
  timestamp : ℤ
deriving DecidableEq, Repr

/-- `StockService.determineChangeType`: price increase, price decrease,
rank change, or `null` (no significant change). -/
def determineChangeType (previous current : StockData) : Option ChangeType :=
  if current.premarketPrice > previous.premarketPrice then
    some .PRICE_INCREASE
  else if current.premarketPrice < previous.premarketPrice then
    some .PRICE_DECREASE
  else if current.rank ≠ previous.rank then
    some .RANK_CHANGE
  else
    none

/-- The body of the per-stock loop in `StockService.analyzeStockChanges`:
given the most recent previous row for the symbol (or `none`) and the
current snapshot, produce the update record that is inserted and pushed,
or `none` when no update is emitted.  `nid` models the database's
auto-increment `lastID` returned by `insertStockUpdate`. -/
def classifyStep (prev : Option StockData) (cur : StockData) (nid : ℤ) :
    Option StockUpdate :=
  match prev with
  | none =>
      -- New stock: previousData is set to the current snapshot itself.
      some { id := nid, stockId := nid, previousData := cur, currentData := cur,
             changeType := .NEW, changeAmount := none, changePercent := none,
             timestamp := cur.timestamp }
  | some prevData =>
      match determineChangeType prevData cur with
      | none => none
      | some ct =>
          some { id := nid, stockId := nid, previousData := prevData, currentData := cur,
                 changeType := ct,
                 changeAmount := some (cur.premarketPrice - prevData.premarketPrice),
                 changePercent :=
                   some ((cur.premarketPrice - prevData.premarketPrice)
                          / prevData.premarketPrice * 100),
                 timestamp := cur.timestamp }

/-- `StockService.analyzeStockChanges`: walk the current batch, look up the
nearest preceding persisted snapshot per symbol (`lookup` models the
`SELECT ... WHERE symbol = ? AND timestamp < ? ORDER BY timestamp DESC
LIMIT 1` query), and collect the emitted update records.  `nid` threads the
auto-increment id of the `stock_updates` table. -/
def analyzeStockChanges (lookup : String → Option StockData) (nid : ℤ) :
    List StockData → List StockUpdate
  | [] => []
  | cur :: rest =>
      match classifyStep (lookup cur.symbol) cur nid with
      | none => analyzeStockChanges lookup nid rest
      | some u => u :: analyzeStockChanges lookup (nid + 1) rest

/-! ## Alert engine (`AlertService`) -/

/-- A user-defined alert rule (`AlertRule` in `types/stock.interface.ts`).
Optional fields are `none` when unset (the database mapper turns null and
zero values into `undefined`). -/
structure AlertRule where
  id : ℤ
  symbol : Option String
  minPercentChange : Option ℚ
  maxPercentChange : Option ℚ
  minVolume : Option ℤ
  enabled : Bool
deriving DecidableEq, Repr

/-- An alert event on the broadcast path (`AlertTrigger` in
`alert.service.ts`). -/
structure AlertTrigger where
  stock : StockData
  update : StockUpdate
  alertType : String
  message : String
deriving DecidableEq, Repr

/-- JS truthiness of an optional number: `undefined`/`null` and `0` are
falsy. -/
def truthyQ : Option ℚ → Bool
  | none => false
  | some v => decide (v ≠ 0)

/-- JS truthiness of an optional integer. -/
def truthyZ : Option ℤ → Bool
  | none => false
  | some v => decide (v ≠ 0)

/-- JS truthiness of an optional string: `undefined`/`null` and the empty
string are falsy. -/
def truthyS : Option String → Bool
  | none => false
  | some s => decide (s ≠ "")

/-- `Number.prototype.toFixed(2)` on an exact rational (round to two
decimal places and render with exactly two fractional digits). -/
def toFixed2 (q : ℚ) : String :=
  let n : ℤ := round (q * 100)
  toString (n / 100) ++ "." ++
    (if n % 100 < 10 then "0" ++ toString (n % 100) else toString (n % 100))

/-- `Number.prototype.toFixed(1)` on an exact rational. -/
def toFixed1 (q : ℚ) : String :=
  let n : ℤ := round (q * 10)
  toString (n / 10) ++ "." ++ toString (n % 10)

/-- `AlertService.formatVolume`: human-readable volume with K/M/B
suffixes. -/
def formatVolume (volume : ℤ) : String :=
  if volume ≥ 1000000000 then toFixed1 ((volume : ℚ) / 1000000000) ++ "B"
  else if volume ≥ 1000000 then toFixed1 ((volume : ℚ) / 1000000) ++ "M"
  else if volume ≥ 1000 then toFixed1 ((volume : ℚ) / 1000) ++ "K"
  else toString volume

/-- The `defaultThresholds` field set in the `AlertService` constructor. -/
structure AlertThresholds where
  minPercentChange : ℚ
  minVolumeIncrease : ℤ
  significantRankChange : ℤ
deriving DecidableEq, Repr

/-- Default threshold values (`ALERT_THRESHOLDS_PERCENT_CHANGE` env default
20, 500K volume, rank change of 10). -/
def defaultThresholds : AlertThresholds :=
  { minPercentChange := 20, minVolumeIncrease := 500000, significantRankChange := 10 }

/-- `AlertService.checkBuiltInAlerts`: the five built-in alert conditions,
pushed in source order. -/
def checkBuiltInAlerts (th : AlertThresholds) (stock : StockData)
    (update : StockUpdate) : List AlertTrigger :=
  (if stock.percentChange ≥ th.minPercentChange then
    [{ stock := stock, update := update, alertType := "HIGH_GAIN",
       message := stock.symbol ++ " has gained " ++ toFixed2 stock.percentChange
         ++ "% in premarket trading" }]
   else [])
  ++ (if update.changeType = .PRICE_INCREASE ∧ truthyQ update.changePercent = true
        ∧ update.changePercent.getD 0 > 15 then
    [{ stock := stock, update := update, alertType := "PRICE_SPIKE",
       message := stock.symbol ++ " price spiked " ++ toFixed2 (update.changePercent.getD 0)
         ++ "% to $" ++ toFixed2 stock.premarketPrice }]
   else [])
  ++ (if update.changeType = .NEW ∧ stock.rank ≤ 10 then
    [{ stock := stock, update := update, alertType := "NEW_TOP_GAINER",
       message := stock.symbol ++ " entered top 10 gainers at rank " ++ toString stock.rank
         ++ " with " ++ toFixed2 stock.percentChange ++ "% gain" }]
   else [])
  ++ (if update.changeType = .RANK_CHANGE ∧
        update.previousData.rank - update.currentData.rank ≥ th.significantRankChange then
    [{ stock := stock, update := update, alertType := "RANK_IMPROVEMENT",
       message := stock.symbol ++ " jumped from rank " ++ toString update.previousData.rank
         ++ " to " ++ toString update.currentData.rank }]
   else [])
  ++ (if stock.premarketVolume > 1000000 then
    [{ stock := stock, update := update, alertType := "HIGH_VOLUME",
       message := stock.symbol ++ " trading with high volume: "
         ++ formatVolume stock.premarketVolume }]
   else [])

/-- The `continue` guard of `checkCustomAlertRules`
(`rule.symbol && rule.symbol !== stock.symbol`): the rule has a truthy
symbol filter that differs from the stock's symbol. -/
def symbolFilterSkips (rule : AlertRule) (stock : StockData) : Bool :=
  truthyS rule.symbol && decide (rule.symbol.getD "" ≠ stock.symbol)

/-- The first condition of `checkCustomAlertRules`
(`rule.minPercentChange && stock.percentChange >= rule.minPercentChange`):
a set, non-zero (truthy) `minPercentChange` with `stock.percentChange` at
or above it. -/
def minPercentHit (stock : StockData) (rule : AlertRule) : Bool :=
  match rule.minPercentChange with
  | some v => decide (v ≠ 0) && decide (stock.percentChange ≥ v)
  | none => false

/-- The second condition of `checkCustomAlertRules`
(`rule.maxPercentChange && stock.percentChange <= rule.maxPercentChange`). -/
def maxPercentHit (stock : StockData) (rule : AlertRule) : Bool :=
  match rule.maxPercentChange with
  | some v => decide (v ≠ 0) && decide (stock.percentChange ≤ v)
  | none => false

/-- The third condition of `checkCustomAlertRules`
(`rule.minVolume && stock.premarketVolume >= rule.minVolume`). -/
def minVolumeHit (stock : StockData) (rule : AlertRule) : Bool :=
  match rule.minVolume with
  | some v => decide (v ≠ 0) && decide (stock.premarketVolume ≥ v)
  | none => false

/-- The message written by the `minPercentChange` check.  The threshold is
`some` whenever the check fires, so `getD 0` renders the set value. -/
def minGainMessage (stock : StockData) (rule : AlertRule) : String :=
  stock.symbol ++ " exceeded minimum gain threshold of "
    ++ toString (rule.minPercentChange.getD 0) ++ "%"

/-- The message written by the `maxPercentChange` check. -/
def maxGainMessage (stock : StockData) (rule : AlertRule) : String :=
  stock.symbol ++ " below maximum gain threshold of "
    ++ toString (rule.maxPercentChange.getD 0) ++ "%"

/-- The message written by the `minVolume` check. -/
def volumeMessage (stock : StockData) (rule : AlertRule) : String :=
  stock.symbol ++ " exceeded minimum volume threshold of "
    ++ formatVolume (rule.minVolume.getD 0)

/-- The per-rule body of `AlertService.checkCustomAlertRules`: the three
condition checks mutate a `(triggered, message)` pair in sequence — none
of them short-circuits, so a later matching condition overwrites the
message of an earlier one. -/
def evalCustomRule (stock : StockData) (rule : AlertRule) : Bool × String :=
  let r0 : Bool × String := (false, "")
  let r1 :=
    if minPercentHit stock rule then (true, minGainMessage stock rule) else r0
  let r2 :=
    if maxPercentHit stock rule then (true, maxGainMessage stock rule) else r1
  if minVolumeHit stock rule then (true, volumeMessage stock rule) else r2

/-- `AlertService.checkCustomAlertRules`: per active rule, skip on a
non-matching symbol filter, otherwise emit one CUSTOM_RULE alert when any
of the three conditions holds. -/
def checkCustomAlertRules (stock : StockData) (update : StockUpdate)
    (rules : List AlertRule) : List AlertTrigger :=
  rules.flatMap fun rule =>
    if symbolFilterSkips rule stock then []
    else
      let r := evalCustomRule stock rule
      if r.1 then
        [{ stock := stock, update := update, alertType := "CUSTOM_RULE", message := r.2 }]
      else []

/-- Stable insertion into a rank-sorted list, modelling the JS
`sort((a, b) => a.rank - b.rank)` comparator. -/
def insertByRank (s : StockData) : List StockData → List StockData
  | [] => [s]
  | t :: ts => if s.rank ≤ t.rank then s :: t :: ts else t :: insertByRank s ts

/-- Sort a stock list ascending by rank. -/
def sortByRank : List StockData → List StockData
  | [] => []
  | s :: rest => insertByRank s (sortByRank rest)

/-- The push body of `AlertService.checkTopPerformers`: a TOP_PERFORMER
alert carrying a synthetic update record with id 0, changeType NEW and
previousData = currentData = the snapshot itself. -/
def topPerformerAlert (stock : StockData) : AlertTrigger :=
  { stock := stock,
    update := { id := 0, stockId := stock.id.getD 0, previousData := stock,
                currentData := stock, changeType := .NEW, changeAmount := none,
                changePercent := none, timestamp := stock.timestamp },
    alertType := "TOP_PERFORMER",
    message := stock.symbol ++ " is #" ++ toString stock.rank
      ++ " premarket gainer with " ++ toFixed2 stock.percentChange ++ "% gain" }

/-- `AlertService.checkTopPerformers`: every current snapshot with rank ≤ 3
re-emits a TOP_PERFORMER alert each cycle, unconditionally. -/
def checkTopPerformers (stocks : List StockData) : List AlertTrigger :=
  (sortByRank (stocks.filter fun s => s.rank ≤ 3)).map topPerformerAlert

/-- `AlertService.checkForAlerts`: per update record, find the matching
snapshot and evaluate built-in and custom rules; then append the
TOP_PERFORMER alerts computed per snapshot. -/
def checkForAlerts (th : AlertThresholds) (stocks : List StockData)
    (updates : List StockUpdate) (rules : List AlertRule) : List AlertTrigger :=
  (updates.flatMap fun u =>
    match stocks.find? (fun s => s.symbol = u.currentData.symbol) with
    | none => []
    | some stock => checkBuiltInAlerts th stock u ++ checkCustomAlertRules stock u rules)
  ++ checkTopPerformers stocks

/-! ## Sample data used by concrete witnesses -/

/-- A concrete snapshot: AAPL at rank 1, price 100. -/
def sampleStockA : StockData :=
  { id := none, symbol := "AAPL", companyName := "Apple Inc.", percentChange := 5,
    premarketPrice := 100, premarketVolume := 1, marketCap := "3T", rank := 1,
    timestamp := 0 }

/-- AAPL one cycle later: price rose from 100 to 102. -/
def sampleStockA2 : StockData :=
  { sampleStockA with percentChange := 7, premarketPrice := 102, timestamp := 60000 }

/-- C1.  For every symbol in the current batch, classification against the
nearest preceding persisted snapshot follows exactly this case analysis:
no previous snapshot → a NEW update; current price above the previous
price → PRICE_INCREASE with changeAmount = cur.price − prev.price and
changePercent = changeAmount / prev.price × 100; current price below →
PRICE_DECREASE with the symmetric (negative) amount and percent; equal
price and different rank → RANK_CHANGE; equal price and rank → no update
emitted for that symbol that cycle. -/
theorem classification_follows_case_analysis
    (lookup : String → Option StockData) (prev cur : StockData) (n : ℤ) :
    (lookup cur.symbol = none →
      analyzeStockChanges lookup n [cur] =
        [{ id := n, stockId := n, previousData := cur, currentData := cur,
           changeType := .NEW, changeAmount := none, changePercent := none,
           timestamp := cur.timestamp }])
    ∧ (lookup cur.symbol = some prev →
        cur.premarketPrice > prev.premarketPrice →
        analyzeStockChanges lookup n [cur] =
          [{ id := n, stockId := n, previousData := prev, currentData := cur,
             changeType := .PRICE_INCREASE,
             changeAmount := some (cur.premarketPrice - prev.premarketPrice),
             changePercent := some ((cur.premarketPrice - prev.premarketPrice)
                                      / prev.premarketPrice * 100),
             timestamp := cur.timestamp }])
    ∧ (lookup cur.symbol = some prev →
        cur.premarketPrice < prev.premarketPrice →
        analyzeStockChanges lookup n [cur] =
          [{ id := n, stockId := n, previousData := prev, currentData := cur,
             changeType := .PRICE_DECREASE,
             changeAmount := some (cur.premarketPrice - prev.premarketPrice),
             changePercent := some ((cur.premarketPrice - prev.premarketPrice)
                                      / prev.premarketPrice * 100),
             timestamp := cur.timestamp }])
    ∧ (lookup cur.symbol = some prev →
        cur.premarketPrice = prev.premarketPrice → cur.rank ≠ prev.rank →
        (analyzeStockChanges lookup n [cur]).map (·.changeType) = [.RANK_CHANGE])
    ∧ (lookup cur.symbol = some prev →
        cur.premarketPrice = prev.premarketPrice → cur.rank = prev.rank →
        analyzeStockChanges lookup n [cur] = []) := by
  refine ⟨fun h => ?_, fun h hgt => ?_, fun h hlt => ?_, fun h heq hr => ?_,
    fun h heq hr => ?_⟩
  · simp [analyzeStockChanges, classifyStep, h]
  · simp [analyzeStockChanges, classifyStep, determineChangeType, h, hgt]
  · simp [analyzeStockChanges, classifyStep, determineChangeType, h, hlt,
      not_lt_of_gt hlt, asymm hlt]
  · simp [analyzeStockChanges, classifyStep, determineChangeType, h, heq, hr]
  · simp [analyzeStockChanges, classifyStep, determineChangeType, h, heq, hr]

/-- Concrete check of the PRICE_INCREASE case of C1: AAPL moved from 100 to
102, so the emitted update carries amount 2 and percent 2. -/
theorem classification_case_analysis_witness :
    analyzeStockChanges (fun _ => some sampleStockA) 7 [sampleStockA2] =
      [{ id := 7, stockId := 7, previousData := sampleStockA,
         currentData := sampleStockA2, changeType := .PRICE_INCREASE,
         changeAmount := some 2, changePercent := some 2, timestamp := 60000 }] := by
  have h := (classification_follows_case_analysis (fun _ => some sampleStockA)
    sampleStockA sampleStockA2 7).2.1 rfl (by norm_num [sampleStockA, sampleStockA2])
  rw [h]
  simp only [sampleStockA, sampleStockA2]
  norm_num

/-- `determineChangeType` never classifies a matched pair as NEW. -/
lemma determineChangeType_ne_NEW (previous current : StockData) :
    determineChangeType previous current ≠ some .NEW := by
  unfold determineChangeType
  split_ifs <;> simp

/-- Any update emitted by the per-stock loop body with changeType NEW has
previousData equal to currentData. -/
lemma classifyStep_NEW_prev_eq_cur {p : Option StockData} {cur : StockData}
    {nid : ℤ} {u : StockUpdate} (h : classifyStep p cur nid = some u)
    (hNEW : u.changeType = .NEW) : u.previousData = u.currentData := by
  cases p with
  | none =>
      simp only [classifyStep, Option.some.injEq] at h
      rw [← h]
  | some prevData =>
      simp only [classifyStep] at h
      cases hdt : determineChangeType prevData cur with
      | none => rw [hdt] at h; cases h
      | some ct =>
          rw [hdt] at h
          simp only [Option.some.injEq] at h
          rw [← h] at hNEW
          simp at hNEW
          exact absurd (hNEW ▸ hdt) (determineChangeType_ne_NEW prevData cur)

/-- C10.  Every emitted update record with changeType NEW has previousData
equal to currentData (the current snapshot itself, not an absent value);
and the synthetic update attached to every TOP_PERFORMER alert always
carries changeType NEW with previousData = currentData = the current
snapshot and id 0, regardless of whether the stock changed. -/
theorem new_updates_previousData_eq_currentData
    (lookup : String → Option StockData) (n : ℤ) (stocks : List StockData) :
    (∀ u ∈ analyzeStockChanges lookup n stocks,
        u.changeType = .NEW → u.previousData = u.currentData)
    ∧ (∀ a ∈ checkTopPerformers stocks,
        a.alertType = "TOP_PERFORMER" ∧ a.update.id = 0 ∧
        a.update.changeType = .NEW ∧ a.update.previousData = a.stock ∧
        a.update.currentData = a.stock) := by
  constructor
  · induction stocks generalizing n with
    | nil => simp [analyzeStockChanges]
    | cons cur rest ih =>
        intro u hu hNEW
        rw [analyzeStockChanges] at hu
        cases hcl : classifyStep (lookup cur.symbol) cur n with
        | none =>
            rw [hcl] at hu
            exact ih n u hu hNEW
        | some v =>
            rw [hcl] at hu
            rcases List.mem_cons.mp hu with h | h
            · exact h ▸ classifyStep_NEW_prev_eq_cur hcl (h ▸ hNEW)
            · exact ih (n + 1) u h hNEW
  · intro a ha
    rcases List.mem_map.mp ha with ⟨s, _, rfl⟩
    simp [topPerformerAlert]

/-- The update record the loop of `analyzeStockChanges` emits for a
first-seen sample stock. -/
def sampleNewUpdate : StockUpdate :=
  { id := 1, stockId := 1, previousData := sampleStockA, currentData := sampleStockA,
    changeType := .NEW, changeAmount := none, changePercent := none, timestamp := 0 }

/-- Concrete check of C10: the NEW update for a first-seen stock and the
synthetic TOP_PERFORMER update both carry previousData = currentData. -/
theorem new_updates_witness :
    sampleNewUpdate.previousData = sampleNewUpdate.currentData ∧
    (topPerformerAlert sampleStockA).update.previousData
      = (topPerformerAlert sampleStockA).stock ∧
    (topPerformerAlert sampleStockA).update.id = 0 := by
  have h := new_updates_previousData_eq_currentData (fun _ => none) 1 [sampleStockA]
  have hmem : sampleNewUpdate ∈ analyzeStockChanges (fun _ => none) 1 [sampleStockA] := by
    simp [analyzeStockChanges, classifyStep, sampleNewUpdate, sampleStockA]
  have hmem2 : topPerformerAlert sampleStockA ∈ checkTopPerformers [sampleStockA] := by
    refine List.mem_map.mpr ⟨sampleStockA, ?_, rfl⟩
    simp [sortByRank, insertByRank, sampleStockA]
  exact ⟨h.1 sampleNewUpdate hmem rfl,
    (h.2 (topPerformerAlert sampleStockA) hmem2).2.2.2.1,
    (h.2 (topPerformerAlert sampleStockA) hmem2).2.1⟩

/-! ## Custom rule evaluation (C3) -/

/-- C3 (amended).  Per active rule: a non-matching symbol filter yields no
alert; otherwise exactly one CUSTOM_RULE alert is emitted when
percentChange ≥ minPercentChange OR percentChange ≤ maxPercentChange OR
volume ≥ minVolume (each condition applying only when its threshold is set
and non-zero), and the LAST matching condition in check order
(min-percent, then max-percent, then volume) supplies the alert message,
because each satisfied check overwrites the message of the previous one. -/
theorem customRule_last_match_wins (stock : StockData) (u : StockUpdate)
    (rule : AlertRule) :
    checkCustomAlertRules stock u [rule] =
      if symbolFilterSkips rule stock then []
      else if minPercentHit stock rule || maxPercentHit stock rule
              || minVolumeHit stock rule then
        [{ stock := stock, update := u, alertType := "CUSTOM_RULE",
           message :=
             if minVolumeHit stock rule then volumeMessage stock rule
             else if maxPercentHit stock rule then maxGainMessage stock rule
             else minGainMessage stock rule }]
      else [] := by
  simp only [checkCustomAlertRules, evalCustomRule, List.flatMap_cons,
    List.flatMap_nil, List.append_nil]
  by_cases hs : symbolFilterSkips rule stock <;>
    by_cases h1 : minPercentHit stock rule <;>
    by_cases h2 : maxPercentHit stock rule <;>
    by_cases h3 : minVolumeHit stock rule <;>
    simp [hs, h1, h2, h3]

/-- Counterexample to C3 as stated: with rule 9 = {minPercentChange 10,
maxPercentChange 100} and TSLA at percentChange 20, both percent conditions
match; the first matching condition is the min-percent check, yet the
emitted alert message is the max-percent one. -/
theorem customRule_first_match_counterexample :
    ((20 : ℚ) ≥ 10 ∧ (20 : ℚ) ≤ 100) ∧
    checkCustomAlertRules
        { sampleStockA with symbol := "TSLA", percentChange := 20 } sampleNewUpdate
        [{ id := 9, symbol := none, minPercentChange := some 10,
           maxPercentChange := some 100, minVolume := none, enabled := true }] =
      [{ stock := { sampleStockA with symbol := "TSLA", percentChange := 20 },
         update := sampleNewUpdate, alertType := "CUSTOM_RULE",
         message := "TSLA below maximum gain threshold of 100%" }] ∧
    "TSLA below maximum gain threshold of 100%"
      ≠ "TSLA exceeded minimum gain threshold of 10%" := by
  refine ⟨⟨by norm_num, by norm_num⟩, ?_, by decide⟩
  norm_num [checkCustomAlertRules, evalCustomRule, symbolFilterSkips, truthyS,
    minPercentHit, maxPercentHit, minVolumeHit, minGainMessage, maxGainMessage,
    volumeMessage, sampleStockA]
  rfl

/-! ## Change-significance predicate (`StockService.hasDataChanged`, C5) -/

/-- `StockService.hasStockChanged`: per-symbol significance thresholds
(price > $0.01, percent > 0.01 points, volume > 1000, any rank change,
company-name change). -/
def hasStockChanged (lastStock newStock : StockData) : Bool :=
  decide (|newStock.premarketPrice - lastStock.premarketPrice| > 1 / 100)
  || decide (|newStock.percentChange - lastStock.percentChange| > 1 / 100)
  || decide (|newStock.premarketVolume - lastStock.premarketVolume| > 1000)
  || decide (|newStock.rank - lastStock.rank| > 0)
  || decide (newStock.companyName ≠ lastStock.companyName)

/-- `Map.get` on a JS `Map` built from `[stock.symbol, stock]` pairs: the
last list entry for a duplicated key wins. -/
def mapGet (l : List StockData) (sym : String) : Option StockData :=
  (l.filter fun s => s.symbol = sym).getLast?

/-- `Map.has` on the same map. -/
def mapHas (l : List StockData) (sym : String) : Bool :=
  l.any fun s => s.symbol = sym

/-- The entry list of a JS `Map` built from `[stock.symbol, stock]` pairs:
keys in first-insertion order, each carrying the last value set for it. -/
def mapEntries (l : List StockData) : List StockData :=
  l.foldl (fun acc s =>
    if acc.any fun t => t.symbol = s.symbol then
      acc.map fun t => if t.symbol = s.symbol then s else t
    else acc ++ [s]) []

/-- The trailing comparison loop of `hasDataChanged`, with its
`changedStocks` counter: the first detected change returns true while the
counter is at most 3, and a positive final counter also returns true. -/
def changedLoop (last : List StockData) : List StockData → ℕ → Bool
  | [], c => decide (c > 0)
  | newStock :: rest, c =>
      match mapGet last newStock.symbol with
      | none => changedLoop last rest c
      | some lastStock =>
          if hasStockChanged lastStock newStock then
            if c + 1 ≤ 3 then true else changedLoop last rest (c + 1)
          else changedLoop last rest c

/-- `StockService.hasDataChanged`: true on first-ever load or empty cache,
on a stock-count change, on any added or removed symbol, and otherwise
when some common symbol changed significantly. -/
def hasDataChanged (hasEverBroadcast : Bool)
    (lastBroadcastData newStocks : List StockData) : Bool :=
  if !hasEverBroadcast || lastBroadcastData.isEmpty then true
  else if newStocks.length ≠ lastBroadcastData.length then true
  else if (mapEntries newStocks).any (fun s => !mapHas lastBroadcastData s.symbol) then true
  else if (mapEntries lastBroadcastData).any (fun s => !mapHas newStocks s.symbol) then true
  else changedLoop lastBroadcastData (mapEntries newStocks) 0

/-- The change-significance predicate in the words of the specification:
first-ever load, symbol-set difference (a stock added or removed,
including a count change), or a significant per-field delta on a symbol
present in both batches. -/
def specSignificantChange (hasEverBroadcast : Bool)
    (last new : List StockData) : Prop :=
  hasEverBroadcast = false ∨ last = []
  ∨ new.length ≠ last.length
  ∨ (∃ s ∈ new, ∀ t ∈ last, t.symbol ≠ s.symbol)
  ∨ (∃ s ∈ last, ∀ t ∈ new, t.symbol ≠ s.symbol)
  ∨ (∃ s ∈ new, ∃ t ∈ last, t.symbol = s.symbol ∧
      (|s.premarketPrice - t.premarketPrice| > 1 / 100
       ∨ |s.percentChange - t.percentChange| > 1 / 100
       ∨ |s.premarketVolume - t.premarketVolume| > 1000
       ∨ s.rank ≠ t.rank
       ∨ s.companyName ≠ t.companyName))

/-- Building the JS map over a list with pairwise-distinct symbols never
overwrites, so the entry list is the input list. -/
lemma mapEntries_foldl (l : List StockData) :
    ∀ acc : List StockData, (l.map (·.symbol)).Nodup →
    (∀ s ∈ l, ∀ t ∈ acc, t.symbol ≠ s.symbol) →
    l.foldl (fun acc s =>
      if acc.any fun t => t.symbol = s.symbol then
        acc.map fun t => if t.symbol = s.symbol then s else t
      else acc ++ [s]) acc = acc ++ l := by
  induction l with
  | nil => intro acc _ _; simp
  | cons s rest ih =>
      intro acc hnd hd
      obtain ⟨hhead, htail⟩ :
          (∀ x ∈ rest, ¬ x.symbol = s.symbol) ∧ (rest.map (·.symbol)).Nodup := by
        simpa using hnd
      have hany : (acc.any fun t => decide (t.symbol = s.symbol)) = false := by
        simp only [List.any_eq_false, decide_eq_true_eq]
        exact fun t ht => hd s (List.mem_cons_self s rest) t ht
      have hstep := ih (acc ++ [s]) htail
        (fun u hu t ht => by
          rcases List.mem_append.mp ht with h | h
          · exact hd u (List.mem_cons_of_mem s hu) t h
          · rcases List.mem_singleton.mp h with rfl
            exact fun hsym => hhead u hu hsym.symm)
      simp only [List.foldl_cons, hany, Bool.false_eq_true, if_false]
      rw [hstep]
      simp

/-- With pairwise-distinct symbols, the JS map preserves the list. -/
lemma mapEntries_of_nodup {l : List StockData}
    (h : (l.map (·.symbol)).Nodup) : mapEntries l = l := by
  have := mapEntries_foldl l [] h (by simp)
  simpa [mapEntries] using this

/-- With pairwise-distinct symbols, `mapGet` returns exactly the member
with the requested symbol. -/
lemma mapGet_of_nodup {l : List StockData} (h : (l.map (·.symbol)).Nodup)
    {t : StockData} (ht : t ∈ l) : mapGet l t.symbol = some t := by
  induction l with
  | nil => cases ht
  | cons s rest ih =>
      obtain ⟨hhead, htail⟩ :
          (∀ x ∈ rest, ¬ x.symbol = s.symbol) ∧ (rest.map (·.symbol)).Nodup := by
        simpa using h
      rcases List.mem_cons.mp ht with rfl | hmem
      · have hrest : rest.filter (fun x => decide (x.symbol = t.symbol)) = [] := by
          rw [List.filter_eq_nil_iff]
          intro x hx
          simpa using hhead x hx
        simp [mapGet, hrest]
      · have hne : s.symbol ≠ t.symbol := fun hsym => hhead t hmem hsym.symm
        have := ih htail hmem
        simpa [mapGet, hne] using this

/-- `mapGet` only returns members carrying the requested symbol. -/
lemma mapGet_spec {l : List StockData} {sym : String} {t : StockData}
    (h : mapGet l sym = some t) : t ∈ l ∧ t.symbol = sym := by
  have hmem : t ∈ l.filter fun s => decide (s.symbol = sym) :=
    List.mem_of_mem_getLast? (Option.mem_def.mpr h)
  have := List.mem_filter.mp hmem
  exact ⟨this.1, by simpa using this.2⟩

/-- Starting from a zero counter, the comparison loop is just an
existence check: some entry whose map value changed significantly. -/
lemma changedLoop_zero (last : List StockData) (l : List StockData) :
    changedLoop last l 0 =
      l.any fun s => (mapGet last s.symbol).elim false fun t => hasStockChanged t s := by
  induction l with
  | nil => rfl
  | cons s rest ih =>
      rw [changedLoop]
      cases hg : mapGet last s.symbol with
      | none => simp [hg, ih]
      | some t =>
          by_cases hc : hasStockChanged t s
          · simp [hg, hc]
          · simp [hg, hc, ih]

/-- C5.  On batches whose symbols are pairwise distinct (the snapshot-batch
invariant), `hasDataChanged` returns true exactly when the specification's
change-significance predicate holds: first-ever load or empty cache, a
symbol-set difference (stock added or removed, including a count change),
or a significant per-field delta (price > $0.01, percent > 0.01 points,
volume > 1000, any rank change, company-name change) on a symbol present
in both batches. -/
theorem hasDataChanged_iff_significant (ever : Bool)
    (last new : List StockData)
    (hln : (last.map (·.symbol)).Nodup) (hnn : (new.map (·.symbol)).Nodup) :
    hasDataChanged ever last new = true ↔ specSignificantChange ever last new := by
  unfold hasDataChanged specSignificantChange
  rw [mapEntries_of_nodup hnn, mapEntries_of_nodup hln]
  by_cases h0 : (!ever || last.isEmpty) = true
  · rw [if_pos h0]
    refine iff_of_true rfl ?_
    rcases Bool.or_eq_true_iff.mp h0 with h | h
    · exact Or.inl (by simpa using h)
    · exact Or.inr (Or.inl (List.isEmpty_iff.mp h))
  · rw [if_neg h0]
    have hever : ever = true := by cases ever <;> simp_all
    have hlast : last ≠ [] := fun hnil => h0 (by simp [hnil])
    by_cases hlen : new.length ≠ last.length
    · rw [if_pos hlen]
      exact iff_of_true rfl (Or.inr (Or.inr (Or.inl hlen)))
    · rw [if_neg hlen]
      by_cases hm1 : (new.any fun s => !mapHas last s.symbol) = true
      · rw [if_pos hm1]
        refine iff_of_true rfl ?_
        rcases List.any_eq_true.mp hm1 with ⟨s, hs, hmiss⟩
        refine Or.inr (Or.inr (Or.inr (Or.inl ⟨s, hs, fun t ht => ?_⟩)))
        have hx : ∀ x ∈ last, ¬ x.symbol = s.symbol := by simpa [mapHas] using hmiss
        exact hx t ht
      · rw [if_neg hm1]
        by_cases hm2 : (last.any fun s => !mapHas new s.symbol) = true
        · rw [if_pos hm2]
          refine iff_of_true rfl ?_
          rcases List.any_eq_true.mp hm2 with ⟨s, hs, hmiss⟩
          refine Or.inr (Or.inr (Or.inr (Or.inr (Or.inl ⟨s, hs, fun t ht => ?_⟩))))
          have hx : ∀ x ∈ new, ¬ x.symbol = s.symbol := by simpa [mapHas] using hmiss
          exact hx t ht
        · rw [if_neg hm2, changedLoop_zero]
          constructor
          · intro hany
            rcases List.any_eq_true.mp hany with ⟨s, hs, hval⟩
            cases hg : mapGet last s.symbol with
            | none => rw [hg] at hval; cases hval
            | some t =>
                rw [hg] at hval
                have hspec := mapGet_spec hg
                refine Or.inr (Or.inr (Or.inr (Or.inr (Or.inr
                  ⟨s, hs, t, hspec.1, hspec.2, ?_⟩))))
                simp only [Option.elim, hasStockChanged, Bool.or_eq_true,
                  decide_eq_true_eq] at hval
                rcases hval with ((((h1 | h2) | h3) | h4) | h5)
                · exact Or.inl h1
                · exact Or.inr (Or.inl h2)
                · exact Or.inr (Or.inr (Or.inl h3))
                · refine Or.inr (Or.inr (Or.inr (Or.inl fun heq => ?_)))
                  simp [heq] at h4
                · exact Or.inr (Or.inr (Or.inr (Or.inr h5)))
          · intro hspec
            rcases hspec with h | h | h | h | h | h
            · rw [hever] at h; cases h
            · exact absurd h hlast
            · exact absurd h hlen
            · rcases h with ⟨s, hs, hall⟩
              refine absurd ?_ hm1
              refine List.any_eq_true.mpr ⟨s, hs, ?_⟩
              simp only [mapHas, Bool.not_eq_true', List.any_eq_false,
                decide_eq_true_eq]
              exact fun t ht => hall t ht
            · rcases h with ⟨s, hs, hall⟩
              refine absurd ?_ hm2
              refine List.any_eq_true.mpr ⟨s, hs, ?_⟩
              simp only [mapHas, Bool.not_eq_true', List.any_eq_false,
                decide_eq_true_eq]
              exact fun t ht => hall t ht
            · rcases h with ⟨s, hs, t, ht, hsym, hchange⟩
              refine List.any_eq_true.mpr ⟨s, hs, ?_⟩
              have hg : mapGet last s.symbol = some t := hsym ▸ mapGet_of_nodup hln ht
              rw [hg]
              simp only [Option.elim, hasStockChanged, Bool.or_eq_true,
                decide_eq_true_eq]
              rcases hchange with h1 | h2 | h3 | h4 | h5
              · exact Or.inl (Or.inl (Or.inl (Or.inl h1)))
              · exact Or.inl (Or.inl (Or.inl (Or.inr h2)))
              · exact Or.inl (Or.inl (Or.inr h3))
              · exact Or.inl (Or.inr (by simpa [abs_pos, sub_ne_zero] using h4))
              · exact Or.inr h5

/-- Concrete check of C5: an empty broadcast cache forces a broadcast, and
the spec predicate agrees. -/
theorem hasDataChanged_iff_witness :
    specSignificantChange true [] [sampleStockA] := by
  have h := hasDataChanged_iff_significant true [] [sampleStockA]
    (by simp) (by simp)
  exact h.mp rfl

/-! ## Snapshot source (`ScraperService`, C9) -/

/-- One `<tr>` of the scraped table, after cheerio text extraction and
numeric parsing.  `cellCount` is the number of `<td>` cells; a numeric
field is `none` when `parseFloat`/`parseInt` produced NaN. -/
structure RawRow where
  cellCount : ℕ
  symbol : String
  companyName : String
  percentChange : Option ℚ
  premarketPrice : Option ℚ
  premarketVolume : Option ℤ
  marketCap : String
deriving DecidableEq, Repr

/-- The per-row extraction of `ScraperService.parseStockData`: skip rows
with fewer than 6 cells, an empty symbol, or NaN numerics; otherwise build
a `StockData` with `rank = index + 1` from the raw table row index. -/
def parseRow (index : ℕ) (timestamp : ℤ) (r : RawRow) : Option StockData :=
  if r.cellCount < 6 then none
  else if r.symbol = "" then none
  else
    match r.percentChange, r.premarketPrice, r.premarketVolume with
    | some pct, some price, some vol =>
        some { id := none, symbol := r.symbol, companyName := r.companyName,
               percentChange := pct, premarketPrice := price,
               premarketVolume := vol, marketCap := r.marketCap,
               rank := (index : ℤ) + 1, timestamp := timestamp }
    | _, _, _ => none

/-- The row loop of `ScraperService.parseStockData`; iteration stops once
`index` reaches `maxStocks`. -/
def parseStockRows (maxStocks : ℕ) (timestamp : ℤ) :
    ℕ → List RawRow → List StockData
  | _, [] => []
  | index, r :: rest =>
      if index ≥ maxStocks then []
      else
        match parseRow index timestamp r with
        | none => parseStockRows maxStocks timestamp (index + 1) rest
        | some s => s :: parseStockRows maxStocks timestamp (index + 1) rest

/-- `ScraperService.parseStockData`: throw on an empty table or when no
row parses; otherwise return the rank-sorted batch. -/
def parseStockData (maxStocks : ℕ) (timestamp : ℤ) (rows : List RawRow) :
    Except String (List StockData) :=
  if rows.isEmpty then .error "No stock data table found on the page"
  else
    let stocks := parseStockRows maxStocks timestamp 0 rows
    if stocks.isEmpty then .error "No valid stock data could be parsed from the page"
    else .ok (sortByRank stocks)

/-- `ScrapingResult` in `types/stock.interface.ts`. -/
structure ScrapingResult where
  success : Bool
  data : List StockData
  timestamp : ℤ
  error : Option String
  totalStocks : ℤ
deriving DecidableEq, Repr

/-- `ScraperService.scrapeStockData`: a network/HTTP failure or a parse
throw is caught and reported as `success := false` with the error message
and no partial data; otherwise the parsed batch is returned. -/
def scrapeStockData (maxStocks : ℕ) (now : ℤ)
    (fetched : Except String (List RawRow)) : ScrapingResult :=
  match fetched with
  | .error msg =>
      { success := false, data := [], timestamp := now, error := some msg,
        totalStocks := 0 }
  | .ok rows =>
      match parseStockData maxStocks now rows with
      | .error msg =>
          { success := false, data := [], timestamp := now, error := some msg,
            totalStocks := 0 }
      | .ok stocks =>
          { success := true, data := stocks, timestamp := now, error := none,
            totalStocks := stocks.length }

/-- A successfully parsed row at index `i` carries rank `i + 1`. -/
lemma parseRow_rank {i : ℕ} {t : ℤ} {r : RawRow} {s : StockData}
    (h : parseRow i t r = some s) : s.rank = (i : ℤ) + 1 := by
  unfold parseRow at h
  split_ifs at h
  cases hpc : r.percentChange with
  | none => rw [hpc] at h; cases h
  | some pct =>
      cases hpp : r.premarketPrice with
      | none => rw [hpc, hpp] at h; cases h
      | some price =>
          cases hpv : r.premarketVolume with
          | none => rw [hpc, hpp, hpv] at h; cases h
          | some vol =>
              rw [hpc, hpp, hpv] at h
              injection h with h
              rw [← h]

/-- Every stock parsed from row index `i` onwards has rank at least
`i + 1`. -/
lemma parseStockRows_rank_lb (m : ℕ) (t : ℤ) :
    ∀ (rows : List RawRow) (i : ℕ),
      ∀ s ∈ parseStockRows m t i rows, (i : ℤ) + 1 ≤ s.rank := by
  intro rows
  induction rows with
  | nil => intro i s hs; simp [parseStockRows] at hs
  | cons r rest ih =>
      intro i s hs
      rw [parseStockRows] at hs
      by_cases hmax : i ≥ m
      · rw [if_pos hmax] at hs; cases hs
      · rw [if_neg hmax] at hs
        cases hp : parseRow i t r with
        | none =>
            rw [hp] at hs
            have := ih (i + 1) s hs
            push_cast at this ⊢
            linarith
        | some s0 =>
            rw [hp] at hs
            rcases List.mem_cons.mp hs with rfl | hmem
            · rw [parseRow_rank hp]
            · have := ih (i + 1) s hmem
              push_cast at this ⊢
              linarith

/-- The parsed batch is strictly increasing in rank. -/
lemma parseStockRows_pairwise (m : ℕ) (t : ℤ) :
    ∀ (rows : List RawRow) (i : ℕ),
      (parseStockRows m t i rows).Pairwise (fun a b => a.rank < b.rank) := by
  intro rows
  induction rows with
  | nil => intro i; simp [parseStockRows]
  | cons r rest ih =>
      intro i
      rw [parseStockRows]
      by_cases hmax : i ≥ m
      · rw [if_pos hmax]; exact List.Pairwise.nil
      · rw [if_neg hmax]
        cases hp : parseRow i t r with
        | none => exact ih (i + 1)
        | some s =>
            refine List.Pairwise.cons ?_ (ih (i + 1))
            intro b hb
            have hlb := parseStockRows_rank_lb m t rest (i + 1) b hb
            push_cast at hlb
            rw [parseRow_rank hp]
            linarith

/-- Inserting an element no larger than every list member puts it at the
head. -/
lemma insertByRank_of_le (s : StockData) (l : List StockData)
    (h : ∀ t ∈ l, s.rank ≤ t.rank) : insertByRank s l = s :: l := by
  cases l with
  | nil => rfl
  | cons t ts =>
      rw [insertByRank, if_pos (h t (List.mem_cons_self t ts))]

/-- Sorting a list that is already strictly increasing in rank is the
identity. -/
lemma sortByRank_of_sorted (l : List StockData)
    (h : l.Pairwise (fun a b => a.rank < b.rank)) : sortByRank l = l := by
  induction l with
  | nil => rfl
  | cons s rest ih =>
      rw [sortByRank, ih (List.Pairwise.of_cons h)]
      exact insertByRank_of_le s rest
        (fun t ht => le_of_lt ((List.pairwise_cons.mp h).1 t ht))

/-- C9 (amended).  Every fetch that reports success yields a non-empty
batch whose ranks are strictly increasing (hence unique) and at least 1 —
rank is 1 + the row's index in the source table, so skipped rows leave
gaps and the batch need not be contiguous or 1-based; a failed fetch
reports an error message and no partial data. -/
theorem scrape_success_rank_properties (m : ℕ) (now : ℤ)
    (fetched : Except String (List RawRow)) :
    ((scrapeStockData m now fetched).success = true →
      (scrapeStockData m now fetched).data ≠ [] ∧
      (scrapeStockData m now fetched).data.Pairwise (fun a b => a.rank < b.rank) ∧
      ∀ s ∈ (scrapeStockData m now fetched).data, 1 ≤ s.rank)
    ∧ ((scrapeStockData m now fetched).success = false →
      (scrapeStockData m now fetched).data = [] ∧
      (scrapeStockData m now fetched).error.isSome = true) := by
  cases fetched with
  | error msg => exact ⟨fun h => Bool.noConfusion h, fun _ => ⟨rfl, rfl⟩⟩
  | ok rows =>
      rw [scrapeStockData]
      cases hp : parseStockData m now rows with
      | error msg => exact ⟨fun h => Bool.noConfusion h, fun _ => ⟨rfl, rfl⟩⟩
      | ok stocks =>
          refine ⟨fun _ => ?_, fun h => Bool.noConfusion h⟩
          rw [parseStockData] at hp
          by_cases h1 : rows.isEmpty = true
          · rw [if_pos h1] at hp; cases hp
          · rw [if_neg h1] at hp
            by_cases h2 : (parseStockRows m now 0 rows).isEmpty = true
            · rw [if_pos h2] at hp; cases hp
            · rw [if_neg h2] at hp
              injection hp with hs
              have hsorted := parseStockRows_pairwise m now rows 0
              have hid := sortByRank_of_sorted _ hsorted
              have hstocks : stocks = parseStockRows m now 0 rows := by
                rw [← hs, hid]
              subst hstocks
              refine ⟨by simpa using h2, hsorted, fun s hsmem => ?_⟩
              have := parseStockRows_rank_lb m now rows 0 s hsmem
              simpa using this

/-- A concrete valid table row for witnesses. -/
def goodRow : RawRow :=
  { cellCount := 7, symbol := "AAPL", companyName := "Apple", percentChange := some 5,
    premarketPrice := some 100, premarketVolume := some 1, marketCap := "3T" }

/-- A row that the parser skips (no symbol in cell 1). -/
def noSymbolRow : RawRow :=
  { cellCount := 7, symbol := "", companyName := "", percentChange := some 1,
    premarketPrice := some 1, premarketVolume := some 1, marketCap := "" }

/-- Counterexample to C9 as stated: a page whose first row is skipped (no
symbol) still reports success, but the single parsed stock carries rank 2,
so the batch is neither 1-based nor contiguous. -/
theorem scrape_rank_gap_counterexample :
    (scrapeStockData 50 0 (.ok [noSymbolRow, goodRow])).success = true ∧
    (scrapeStockData 50 0 (.ok [noSymbolRow, goodRow])).data.map (·.rank) = [2] := by
  constructor <;> rfl

/-- Concrete check of C9 (amended): a one-row page parses to a non-empty,
strictly rank-increasing batch with ranks at least 1. -/
theorem scrape_success_rank_witness :
    (scrapeStockData 50 0 (.ok [goodRow])).data ≠ [] ∧
    (scrapeStockData 50 0 (.ok [goodRow])).data.Pairwise (fun a b => a.rank < b.rank) ∧
    ∀ s ∈ (scrapeStockData 50 0 (.ok [goodRow])).data, 1 ≤ s.rank :=
  (scrape_success_rank_properties 50 0 (.ok [goodRow])).1 rfl

/-! ## Orchestrator (`CronService`, C2/C4/C6) -/

/-- The observable work a cycle performs, in execution order. -/
inductive Effect where
  | statusStarted
  | fetch
  | statusError (msg : String)
  | analyze
  | persistData (stockCount : ℕ) (success : Bool)
  | alertCheck
  | broadcastStocks
  | broadcastAlert (alertType : String)
  | statusSuccess
  | cleanOldData (daysToKeep : ℕ)
deriving DecidableEq, Repr

/-- The mutable fields of `CronService` relevant to a cycle.  Times are
epoch milliseconds. -/
structure CronState where
  isRunning : Bool
  lastRun : Option ℤ
  nextRun : Option ℤ
deriving DecidableEq, Repr

/-- The environment one cycle runs in: the wall-clock readings the code
takes, the fetch outcome, and the inputs of the analysis and alert
phases. -/
structure CycleEnv where
  startTime : ℤ
  fetched : Except String (List RawRow)
  maxStocks : ℕ
  prevLookup : String → Option StockData
  nextUpdateId : ℤ
  rules : List AlertRule
  thresholds : AlertThresholds
  cleanCheckTime : ℤ
  endTime : ℤ
  intervalMinutes : ℤ

/-- `CronService.shouldCleanOldData`: true when `lastRun` is set and lies
more than one hour before `now` (`Date.now()` at the check). -/
def shouldCleanOldData (lastRun : Option ℤ) (now : ℤ) : Bool :=
  match lastRun with
  | none => false
  | some t => decide (t < now - 3600000)

/-- `CronService.calculateNextRun`: now plus the interval in minutes. -/
def calculateNextRun (now intervalMinutes : ℤ) : ℤ :=
  now + intervalMinutes * 60000

/-- The state after the unguarded entry of `runScrapingTask`
(`this.isRunning = true; this.lastRun = new Date()`), which is also the
state any concurrently arriving invocation observes while the cycle is
suspended at an await point. -/
def cycleBegin (s : CronState) (startTime : ℤ) : CronState :=
  { s with isRunning := true, lastRun := some startTime }

/-- `CronService.runScrapingTask`: return immediately when a cycle is
already running; otherwise broadcast STARTED, fetch, and either abort with
an ERROR status on a reported fetch failure, or analyze, persist, evaluate
alerts, broadcast the update set and each alert, broadcast SUCCESS, and
clean old data when the hourly throttle allows.  The `finally` block
clears the running flag and recomputes the next run time on every path. -/
def runScrapingTask (s : CronState) (env : CycleEnv) : CronState × List Effect :=
  if s.isRunning then (s, [])
  else
    let running := cycleBegin s env.startTime
    let result := scrapeStockData env.maxStocks env.startTime env.fetched
    let finalNextRun := some (calculateNextRun env.endTime env.intervalMinutes)
    if result.success = false then
      ({ running with isRunning := false, nextRun := finalNextRun },
       [.statusStarted, .fetch,
        .statusError ("Scraping failed: " ++ result.error.getD "")])
    else
      let stockUpdates := analyzeStockChanges env.prevLookup env.nextUpdateId result.data
      let alerts := checkForAlerts env.thresholds result.data stockUpdates env.rules
      let cleanup :=
        if shouldCleanOldData running.lastRun env.cleanCheckTime then
          [Effect.cleanOldData 30]
        else []
      ({ running with isRunning := false, nextRun := finalNextRun },
       [.statusStarted, .fetch, .analyze, .persistData result.data.length true,
        .alertCheck, .broadcastStocks]
         ++ alerts.map (fun a => .broadcastAlert a.alertType)
         ++ [.statusSuccess] ++ cleanup)

/-- `CronService.triggerManualRun` simply invokes `runScrapingTask`. -/
def triggerManualRun (s : CronState) (env : CycleEnv) : CronState × List Effect :=
  runScrapingTask s env

/-- C2.  A manual trigger issued while a cycle is running returns
immediately as a no-op: the state is untouched and the effect trace is
empty (no fetch, persist, alert-evaluation, or broadcast work).  Since the
running invocation set the flag at entry (`cycleBegin`), a second
concurrent `triggerManualRun` observing the mid-cycle state performs
nothing, so two concurrent calls produce exactly one executed cycle. -/
theorem triggerManualRun_single_flight (s : CronState) (env : CycleEnv)
    (h : s.isRunning = true) :
    triggerManualRun s env = (s, []) ∧
    ∀ s₀ t, (cycleBegin s₀ t).isRunning = true := by
  refine ⟨?_, fun s₀ t => rfl⟩
  rw [triggerManualRun, runScrapingTask, if_pos h]

/-- The environment of a failing fetch used in concrete scenarios. -/
def failEnv : CycleEnv :=
  { startTime := 0, fetched := .error "timeout", maxStocks := 50,
    prevLookup := fun _ => none, nextUpdateId := 1, rules := [],
    thresholds := defaultThresholds, cleanCheckTime := 1000, endTime := 2000,
    intervalMinutes := 1 }

/-- The idle state of a freshly constructed `CronService`. -/
def idleCronState : CronState :=
  { isRunning := false, lastRun := none, nextRun := none }

/-- Concrete check of C2: a manual trigger arriving while another
invocation is mid-cycle (flag set at entry) is a pure no-op. -/
theorem triggerManualRun_single_flight_witness :
    triggerManualRun (cycleBegin idleCronState 5) failEnv
      = (cycleBegin idleCronState 5, []) :=
  (triggerManualRun_single_flight _ failEnv rfl).1

/-- Recognizer for persistence effects. -/
def isPersistEffect : Effect → Bool
  | .persistData _ _ => true
  | _ => false

/-- Recognizer for the STOCKS_UPDATE broadcast. -/
def isStockBroadcast : Effect → Bool
  | .broadcastStocks => true
  | _ => false

/-- Recognizer for alert-evaluation and alert-broadcast effects. -/
def isAlertEffect : Effect → Bool
  | .alertCheck => true
  | .broadcastAlert _ => true
  | _ => false

/-- C4 (amended).  A cycle whose snapshot fetch reports failure broadcasts
SCRAPING_STATUS ERROR and aborts without broadcasting any stock data and
without persisting anything: no STOCKS_UPDATE, no alert work, and in
particular no failure record is written — the failure record of the catch
block is persisted only when the cycle throws, which a reported fetch
failure does not. -/
theorem fetchFailure_aborts_without_persist (s : CronState) (env : CycleEnv)
    (hidle : s.isRunning = false)
    (hfail : (scrapeStockData env.maxStocks env.startTime env.fetched).success = false) :
    (runScrapingTask s env).2 =
      [.statusStarted, .fetch,
       .statusError ("Scraping failed: "
         ++ (scrapeStockData env.maxStocks env.startTime env.fetched).error.getD "")] ∧
    ∀ e ∈ (runScrapingTask s env).2,
      isPersistEffect e = false ∧ isStockBroadcast e = false ∧
      isAlertEffect e = false := by
  have h2 : (runScrapingTask s env).2 =
      [.statusStarted, .fetch,
       .statusError ("Scraping failed: "
         ++ (scrapeStockData env.maxStocks env.startTime env.fetched).error.getD "")] := by
    simp [runScrapingTask, hidle, hfail]
  rw [h2]
  refine ⟨rfl, fun e he => ?_⟩
  simp only [List.mem_cons, List.not_mem_nil, or_false] at he
  rcases he with rfl | rfl | rfl <;> exact ⟨rfl, rfl, rfl⟩

/-- Counterexample to C4 as stated: on a reported fetch failure the cycle
broadcasts the ERROR status and stops — the effect trace contains no
persistence effect at all, so no failure record is persisted. -/
theorem fetchFailure_persists_nothing_counterexample :
    (runScrapingTask idleCronState failEnv).2 =
      [.statusStarted, .fetch, .statusError "Scraping failed: timeout"] ∧
    (runScrapingTask idleCronState failEnv).2.all (fun e => !isPersistEffect e) = true := by
  constructor <;> rfl

/-- Concrete check of C4 (amended) at a failing fetch. -/
theorem fetchFailure_aborts_witness :
    (runScrapingTask idleCronState failEnv).2 =
      [.statusStarted, .fetch, .statusError "Scraping failed: timeout"] ∧
    ∀ e ∈ (runScrapingTask idleCronState failEnv).2,
      isPersistEffect e = false ∧ isStockBroadcast e = false ∧
      isAlertEffect e = false :=
  fetchFailure_aborts_without_persist idleCronState failEnv rfl rfl

/-- A state whose previous cycle ran two hours before time 0. -/
def staleState : CronState :=
  { isRunning := false, lastRun := some (-7200000), nextRun := none }

/-- The environment of a fast, successful cycle starting at time 0 whose
cleanup check runs one second in. -/
def cleanEnv : CycleEnv :=
  { startTime := 0, fetched := .ok [goodRow], maxStocks := 50,
    prevLookup := fun _ => none, nextUpdateId := 1, rules := [],
    thresholds := defaultThresholds, cleanCheckTime := 1000, endTime := 2000,
    intervalMinutes := 1 }

/-- C6 (code bug).  A successful cycle starting two hours after the
previous run should prune (more than one hour of wall-clock has elapsed
since the last run), but the cycle overwrote `lastRun` with its own start
time before `shouldCleanOldData` runs, so the check compares against the
current cycle's start and the prune never fires for any cycle shorter
than an hour — data older than the retention window is never cleaned. -/
theorem cleanup_throttle_never_fires :
    ((-7200000 : ℤ) < 1000 - 3600000) ∧
    Effect.statusSuccess ∈ (runScrapingTask staleState cleanEnv).2 ∧
    Effect.cleanOldData 30 ∉ (runScrapingTask staleState cleanEnv).2 ∧
    shouldCleanOldData (cycleBegin staleState 0).lastRun cleanEnv.cleanCheckTime
      = false := by
  refine ⟨by norm_num, ?_, ?_, rfl⟩ <;> decide

/-! ## Distribution hub (`WebSocketService`, C7/C8) -/

/-- A registered connection (`ConnectedClient` in `websocket.service.ts`).
`isAlive` is the liveness flag toggled by the heartbeat and pong
handlers. -/
structure ConnectedClient where
  id : String
  isAlive : Bool
  connectedAt : ℤ
deriving DecidableEq, Repr

/-- One tick of the 30-second interval of
`WebSocketService.startHeartbeat`: every client whose flag is still false
is terminated and removed; every surviving client has its flag reset to
false and is pinged. -/
def heartbeatTick (clients : List ConnectedClient) : List ConnectedClient :=
  clients.filterMap fun c =>
    if c.isAlive = false then none
    else some { c with isAlive := false }

/-- The `pong` handler: mark the client alive again. -/
def pongReceived (clients : List ConnectedClient) (clientId : String) :
    List ConnectedClient :=
  clients.map fun c => if c.id = clientId then { c with isAlive := true } else c

/-- The ids a `broadcast` call delivers to: exactly the clients currently
in the registry. -/
def broadcastRecipients (clients : List ConnectedClient) : List String :=
  clients.map (·.id)

/-- Every survivor of a heartbeat tick has its flag reset to false. -/
lemma heartbeatTick_flags (clients : List ConnectedClient) :
    ∀ c ∈ heartbeatTick clients, c.isAlive = false := by
  intro c hc
  rcases List.mem_filterMap.mp hc with ⟨d, _, hd⟩
  by_cases h : d.isAlive = false
  · rw [if_pos h] at hd; cases hd
  · rw [if_neg h] at hd
    injection hd with hd
    rw [← hd]

/-- Two consecutive ticks with no pong in between evict every client. -/
lemma heartbeatTick_twice (clients : List ConnectedClient) :
    heartbeatTick (heartbeatTick clients) = [] := by
  rw [List.eq_nil_iff_forall_not_mem]
  intro c hc
  rcases List.mem_filterMap.mp hc with ⟨d, hd, hmk⟩
  have := heartbeatTick_flags clients d hd
  rw [if_pos this] at hmk
  cases hmk

/-- C7.  On a heartbeat tick, every registered client whose liveness flag
is still false is removed from the registry (and so receives no further
broadcasts), every surviving client has its flag reset to false pending
the next pong; consequently a client that answers no ping is gone after
two ticks (it misses two consecutive pongs and receives no further
broadcasts), while a client that pongs between ticks is never evicted by
the heartbeat. -/
theorem heartbeat_liveness (clients : List ConnectedClient)
    (c : ConnectedClient) (hnd : (clients.map (·.id)).Nodup)
    (hc : c ∈ clients) :
    (c.isAlive = false → c.id ∉ broadcastRecipients (heartbeatTick clients))
    ∧ (c.isAlive = true → { c with isAlive := false } ∈ heartbeatTick clients)
    ∧ broadcastRecipients (heartbeatTick (heartbeatTick clients)) = []
    ∧ (c.isAlive = true →
        c.id ∈ broadcastRecipients
          (heartbeatTick (pongReceived (heartbeatTick clients) c.id))) := by
  have hmemTick : c.isAlive = true → { c with isAlive := false } ∈ heartbeatTick clients := by
    intro halive
    refine List.mem_filterMap.mpr ⟨c, hc, ?_⟩
    rw [if_neg (by simp [halive])]
  refine ⟨?_, hmemTick, ?_, ?_⟩
  · intro hdead hrec
    rcases List.mem_map.mp hrec with ⟨d, hd, hid⟩
    rcases List.mem_filterMap.mp hd with ⟨d0, hd0, hmk⟩
    by_cases h : d0.isAlive = false
    · rw [if_pos h] at hmk; cases hmk
    · rw [if_neg h] at hmk
      injection hmk with hmk
      have hd0id : d0.id = c.id := by rw [← hid, ← hmk]
      have : d0 = c := List.inj_on_of_nodup_map hnd hd0 hc hd0id
      rw [this] at h
      exact h hdead
  · rw [heartbeatTick_twice]; rfl
  · intro halive
    have h1 : { c with isAlive := false } ∈ heartbeatTick clients := hmemTick halive
    have h2 : ({ c with isAlive := true } : ConnectedClient)
        ∈ pongReceived (heartbeatTick clients) c.id := by
      unfold pongReceived
      refine List.mem_map.mpr ⟨{ c with isAlive := false }, h1, ?_⟩
      simp
    have h3 : ({ c with isAlive := false } : ConnectedClient)
        ∈ heartbeatTick (pongReceived (heartbeatTick clients) c.id) := by
      refine List.mem_filterMap.mpr ⟨{ c with isAlive := true }, h2, ?_⟩
      rw [if_neg (by simp)]
    exact List.mem_map.mpr ⟨{ c with isAlive := false }, h3, rfl⟩

/-- Concrete check of C7: with one dead and one live client, the tick
evicts the dead one, keeps the live one with a reset flag, a second
silent tick empties the registry, and a pong between ticks preserves the
live client. -/
theorem heartbeat_liveness_witness :
    ("dead" ∉ broadcastRecipients (heartbeatTick
        [⟨"dead", false, 0⟩, ⟨"live", true, 0⟩]))
    ∧ (⟨"live", false, 0⟩ : ConnectedClient) ∈ heartbeatTick
        [⟨"dead", false, 0⟩, ⟨"live", true, 0⟩]
    ∧ broadcastRecipients (heartbeatTick (heartbeatTick
        [⟨"dead", false, 0⟩, ⟨"live", true, 0⟩])) = []
    ∧ "live" ∈ broadcastRecipients (heartbeatTick (pongReceived
        (heartbeatTick [⟨"dead", false, 0⟩, ⟨"live", true, 0⟩]) "live")) := by
  have hd := heartbeat_liveness [⟨"dead", false, 0⟩, ⟨"live", true, 0⟩]
    ⟨"dead", false, 0⟩ (by decide) (by decide)
  have hl := heartbeat_liveness [⟨"dead", false, 0⟩, ⟨"live", true, 0⟩]
    ⟨"live", true, 0⟩ (by decide) (by decide)
  exact ⟨hd.1 rfl, hl.2.1 rfl, hd.2.2.1, hl.2.2.2 rfl⟩

/-- The server→client message kinds of the broadcast wire protocol,
as a closed tagged union. -/
inductive ServerMessage where
  | connection (message : String)
  | stocksUpdate (stocks : List StockData) (updates : List StockUpdate)
  | alert (alertType : String) (message : String)
  | scrapingStatus (status : String) (message : String)
  | error (error : String)
deriving DecidableEq, Repr

/-- The parsed client→server messages: PING, REQUEST_LATEST_DATA, or any
other type string. -/
inductive ClientMessage where
  | ping
  | requestLatestData
  | unknown (msgType : String)
deriving DecidableEq, Repr

/-- `WebSocketService.sendToClient`: do nothing for an unknown client;
deliver the message when the send succeeds; on a send exception, delete
the client from the registry. -/
def sendToClient (clients : List ConnectedClient) (clientId : String)
    (m : ServerMessage) (sendOk : Bool) :
    List ConnectedClient × List ServerMessage :=
  match clients.find? (fun c => c.id = clientId) with
  | none => (clients, [])
  | some _ =>
      if sendOk then (clients, [m])
      else (clients.filter fun c => c.id ≠ clientId, [])

/-- The `ws.on('message')` handler including its `JSON.parse` catch
(`raw = none` models an unparseable payload) and
`WebSocketService.handleClientMessage`: PING → pong acknowledgment;
REQUEST_LATEST_DATA → current snapshot set (or a notice when none
exists); unknown type → ERROR acknowledgment naming the type; malformed →
ERROR acknowledgment. -/
def onClientMessage (clients : List ConnectedClient) (clientId : String)
    (raw : Option ClientMessage) (latestStocks : List StockData)
    (latestUpdates : List StockUpdate) (sendOk : Bool) :
    List ConnectedClient × List ServerMessage :=
  match raw with
  | none => sendToClient clients clientId (.error "Invalid message format") sendOk
  | some .ping => sendToClient clients clientId (.connection "pong") sendOk
  | some .requestLatestData =>
      if latestStocks.isEmpty = false then
        sendToClient clients clientId (.stocksUpdate latestStocks latestUpdates) sendOk
      else
        sendToClient clients clientId (.connection "No current data available") sendOk
  | some (.unknown t) =>
      sendToClient clients clientId
        (.error ("Unknown message type: " ++ t)) sendOk

/-- C8.  For a registered client with a healthy connection: PING receives
a pong acknowledgment; REQUEST_LATEST_DATA receives the current
best-known snapshot set (when one exists); an unknown message type
receives an ERROR acknowledgment naming the bad type; a malformed payload
receives an ERROR acknowledgment — and in every case the registry is
unchanged, so the connection stays open. -/
theorem client_protocol_responses (clients : List ConnectedClient)
    (clientId : String) (t : String) (stocks : List StockData)
    (updates : List StockUpdate)
    (hc : (clients.find? (fun c => c.id = clientId)).isSome = true) :
    onClientMessage clients clientId (some .ping) stocks updates true
      = (clients, [.connection "pong"])
    ∧ (stocks ≠ [] →
        onClientMessage clients clientId (some .requestLatestData) stocks updates true
          = (clients, [.stocksUpdate stocks updates]))
    ∧ onClientMessage clients clientId (some (.unknown t)) stocks updates true
        = (clients, [.error ("Unknown message type: " ++ t)])
    ∧ onClientMessage clients clientId none stocks updates true
        = (clients, [.error "Invalid message format"]) := by
  rcases hfind : clients.find? (fun c => c.id = clientId) with _ | c
  · rw [hfind] at hc; cases hc
  · refine ⟨?_, fun hne => ?_, ?_, ?_⟩
    · simp [onClientMessage, sendToClient, hfind]
    · have : stocks.isEmpty = false := by
        simpa [List.isEmpty_iff] using hne
      simp [onClientMessage, sendToClient, hfind, this]
    · simp [onClientMessage, sendToClient, hfind]
    · simp [onClientMessage, sendToClient, hfind]

/-- Concrete check of C8 at a one-client registry. -/
theorem client_protocol_witness :
    onClientMessage [⟨"c1", true, 0⟩] "c1" (some .ping) [sampleStockA] [] true
      = ([⟨"c1", true, 0⟩], [.connection "pong"])
    ∧ onClientMessage [⟨"c1", true, 0⟩] "c1" (some .requestLatestData)
        [sampleStockA] [] true
      = ([⟨"c1", true, 0⟩], [.stocksUpdate [sampleStockA] []])
    ∧ onClientMessage [⟨"c1", true, 0⟩] "c1" (some (.unknown "NOPE"))
        [sampleStockA] [] true
      = ([⟨"c1", true, 0⟩], [.error "Unknown message type: NOPE"])
    ∧ onClientMessage [⟨"c1", true, 0⟩] "c1" none [sampleStockA] [] true
      = ([⟨"c1", true, 0⟩], [.error "Invalid message format"]) := by
  have h := client_protocol_responses [⟨"c1", true, 0⟩] "c1" "NOPE"
    [sampleStockA] [] (by rfl)
  refine ⟨h.1, ?_, ?_, h.2.2.2⟩
  · have := h.2.1 (by simp)
    rw [this]
  · exact h.2.2.1

end StockTracker
